import Mathlib

/-!
Verification of the reddit-to-gmap pipeline against its specification.

The Go sources are shallowly embedded: Go machine integers become `ℤ`
(no arithmetic near overflow occurs anywhere in the pipeline), Go
`float64` fields become exact rationals `ℚ` (the only float operations
in the program are storage and fixed-precision decimal formatting),
JSON documents become the inductive `Json` below, the file-system cache
becomes an explicit `CacheState` map, and every third-party HTTP call
(Reddit listing pages, the Gemini generate-content call, the Places
text search) becomes an oracle function passed explicitly, so that the
control flow around those calls is embedded exactly as written.
-/

namespace RedditToGmap

/-! ### JSON values and the keyed snapshot store (package `cache`) -/

/-- JSON document model; numbers are modelled as integers, which covers
every numeric field the cache ever stores. -/
inductive Json where
  | null
  | bool (b : Bool)
  | num (n : ℤ)
  | str (s : String)
  | arr (elems : List Json)
  | obj (fields : List (String × Json))

/-- Field lookup in a JSON object (the envelopes written by the program
never contain duplicate keys). -/
def lookupField : List (String × Json) → String → Option Json
  | [], _ => none
  | (k, v) :: rest, key => if k = key then some v else lookupField rest key

/-- The on-disk cache, one parsed JSON document per key.  `cache.GetCachePath`
maps a key to `.cache/<key>.json`; the path bijection lets us index by key. -/
def CacheState : Type := String → Option Json

/-- Model of `cache.CacheExists`: the file for the key exists. -/
def cacheExists (st : CacheState) (key : String) : Bool :=
  (st key).isSome

/-- Model of `cache.WriteToCache`: wraps the payload in a `{data: payload}`
envelope and overwrites the file for the key. -/
def writeToCache (st : CacheState) (key : String) (payload : Json) : CacheState :=
  fun k => if k = key then some (Json.obj [("data", payload)]) else st k

/-- Model of unmarshalling a cache file into Go's `Cache{Data any}` struct and
re-marshalling the `Data` field: for a JSON object the `data` field (absent
means `null`), for `null` the zero value, anything else is a parse error. -/
def readEnvelope : Json → Except String Json
  | Json.obj fields => .ok ((lookupField fields "data").getD Json.null)
  | Json.null => .ok Json.null
  | _ => .error "error unmarshaling cache data"

/-- Outcome of one `getCachedOrFetch` call: the returned value, the cache
state afterwards, and whether the fetch closure was invoked. -/
structure GetOrFetchResult (T : Type) where
  result : Except String T
  state : CacheState
  invokedFetch : Bool

/-- Model of `getCachedOrFetch` in `main.go`: serve from the snapshot at
`key` when `useCache` is set and the snapshot exists (decoding it into the
stage's result type via `dec`), otherwise run the fetch closure and persist
a successful result under `key` (encoding it via `enc`). -/
def getCachedOrFetch {T : Type} (st : CacheState) (key : String) (useCache : Bool)
    (dec : Json → Option T) (enc : T → Json) (fetchFn : Except String T) :
    GetOrFetchResult T :=
  if useCache ∧ cacheExists st key then
    match st key with
    | none => ⟨.error "error reading from cache", st, false⟩
    | some file =>
      match readEnvelope file with
      | .error e => ⟨.error e, st, false⟩
      | .ok payload =>
        match dec payload with
        | none => ⟨.error "error unmarshaling cache data", st, false⟩
        | some v => ⟨.ok v, st, false⟩
  else
    match fetchFn with
    | .error e => ⟨.error e, st, true⟩
    | .ok v => ⟨.ok v, writeToCache st key (enc v), true⟩

/-! ### Forum Post Source (package `reddit`) -/

/-- Model of `reddit.Post` (the paginated-client variant): the fields of the
nested `data` object that the program reads. -/
structure Post where
  title : String
  permalink : String
  selftext : String
  score : ℤ
deriving DecidableEq

/-- One page of a listing response: the posts plus the continuation cursor
(`after`; empty string means no further page). -/
structure PageResponse where
  posts : List Post
  nextAfter : String
deriving DecidableEq

/-- A page-request oracle standing for `fetchPostsPage`: it receives the
per-page `limit`, the continuation cursor `after`, and the running `count`
of posts already seen, and returns a page or a transport/parse error. -/
def PageSource : Type := ℤ → String → ℕ → Except String PageResponse

/-- Why the pagination loop in `GetPosts` stopped. -/
inductive StopReason where
  | countReached
  | cursorExhausted
deriving DecidableEq

/-- The pagination loop of `reddit.Client.GetPosts`, instrumented with the
list of per-page limits it requested and the reason it stopped.  The Go
loop `for len(allPosts) < limit` has no intrinsic bound (a source that
returns empty pages with live cursors loops forever), so the model carries
fuel; `none` means the fuel ran out before the loop exited. -/
def getPostsLoop (src : PageSource) (limit : ℤ) :
    ℕ → List Post → String → ℕ → List ℤ →
    Option (Except String (List Post × StopReason) × List ℤ)
  | 0, _, _, _, _ => none
  | fuel + 1, acc, after, count, reqs =>
    if (acc.length : ℤ) < limit then
      let remaining := if limit - (acc.length : ℤ) > 100 then 100 else limit - (acc.length : ℤ)
      match src remaining after count with
      | .error e => some (.error e, reqs ++ [remaining])
      | .ok page =>
        let acc2 := acc ++ page.posts
        if page.nextAfter = "" then
          some (.ok (acc2, .cursorExhausted), reqs ++ [remaining])
        else
          getPostsLoop src limit fuel acc2 page.nextAfter (count + page.posts.length)
            (reqs ++ [remaining])
    else
      some (.ok (acc, .countReached), reqs)

/-- Model of `reddit.Client.GetPosts` after the one-time token exchange:
accumulate pages until the requested count is reached or the cursor is
exhausted. -/
def getPosts (src : PageSource) (limit : ℤ) (fuel : ℕ) :
    Option (Except String (List Post × StopReason) × List ℤ) :=
  getPostsLoop src limit fuel [] "" 0 []

/-! ### Extraction Stage (package `gemini`) -/

/-- Model of `gemini.Restaurant`: one candidate restaurant extracted from a
post.  `googleMapsUrl` is the optional link guessed by extraction
(`omitempty`, empty string when absent). -/
structure Candidate where
  name : String
  upvotes : ℤ
  redditUrl : String
  neighborhood : String
  googleMapsUrl : String
deriving DecidableEq

/-- Model of `gemini.Client.ToRestaurantData`: the generate-content call is
an oracle from the full post batch (the prompt embeds the JSON of all posts)
to the response's candidate texts, and `parse` stands for unmarshalling the
first candidate text into the restaurant schema.  The second component
counts how many times the generation service was invoked. -/
def toRestaurantData (gen : List Post → Except String (List String))
    (parse : String → Option (List Candidate)) (posts : List Post) :
    Except String (List Candidate) × ℕ :=
  match gen posts with
  | .error e => (.error ("failed to generate content: " ++ e), 1)
  | .ok [] => (.error "no response generated", 1)
  | .ok (text :: _) =>
    match parse text with
    | none => (.error "failed to parse response", 1)
    | some restaurants => (.ok restaurants, 1)

/-! ### Place Resolution Stage (package `maps`) -/

/-- Model of the fields of a Places API `Place` that the program reads;
`userRatingCount` is a nullable pointer in the wire schema. -/
structure Place where
  name : String
  latitude : ℚ
  longitude : ℚ
  rating : ℚ
  userRatingCount : Option ℤ
  primaryTypeDisplayName : String
deriving DecidableEq

/-- Model of `maps.GoogleMapsData`. -/
structure GoogleMapsData where
  latitude : ℚ
  longitude : ℚ
  rating : ℚ
  userRatingCount : ℤ
  googleMapsUrl : String
  placeType : String
deriving DecidableEq

/-- Model of `maps.Restaurant`: a candidate enriched with canonical place
data. -/
structure Resolved where
  name : String
  upvotes : ℤ
  redditUrl : String
  neighborhood : String
  googleMapsData : GoogleMapsData
deriving DecidableEq

/-- Search query built by `FetchGoogleMapsLink`: name, then the neighborhood
when present, then the fixed "NYC" location hint. -/
def queryOf (c : Candidate) : String :=
  (if c.neighborhood = "" then c.name else c.name ++ " " ++ c.neighborhood) ++ " NYC"

/-- Model of `strings.TrimPrefix(s, "places/")` as used on place resource
names. -/
def trimPlaces (s : String) : String :=
  if s.startsWith "places/" then s.drop 7 else s

/-- Canonical maps link built from a place resource name. -/
def mapsLinkOf (placeName : String) : String :=
  "https://www.google.com/maps/place/?q=place_id:" ++ trimPlaces placeName

/-- Model of `maps.Client.FetchGoogleMapsLink` (the variant returning
`(*Restaurant, error)`): search with the built query, drop the candidate
(`ok none`) on zero matches or when the first match has no user-rating
count, otherwise copy the candidate's fields and attach the place data. -/
def fetchGoogleMapsLink (search : String → Except String (List Place))
    (c : Candidate) : Except String (Option Resolved) :=
  match search (queryOf c) with
  | .error e => .error ("failed to search for place: " ++ e)
  | .ok [] => .ok none
  | .ok (place :: _) =>
    match place.userRatingCount with
    | none => .ok none
    | some cnt =>
      .ok (some
        { name := c.name
          upvotes := c.upvotes
          redditUrl := c.redditUrl
          neighborhood := c.neighborhood
          googleMapsData :=
            { latitude := place.latitude
              longitude := place.longitude
              rating := place.rating
              userRatingCount := cnt
              googleMapsUrl := mapsLinkOf place.name
              placeType := place.primaryTypeDisplayName } })

/-- Model of the resolution loop in `exportFullRestaurantData` (`main.go`):
each candidate is resolved in turn; an error or an empty resolution drops
that one candidate (with a logged warning) and the loop continues with the
rest. -/
def resolveBatch (search : String → Except String (List Place)) :
    List Candidate → List Resolved
  | [] => []
  | c :: rest =>
    match fetchGoogleMapsLink search c with
    | .error _ => resolveBatch search rest
    | .ok none => resolveBatch search rest
    | .ok (some r) => r :: resolveBatch search rest

/-! ### Credentials and pipeline ordering (packages `reddit`, `gemini`, `main`) -/

/-- Process environment: a partial map from variable names to values. -/
def Env : Type := String → Option String

/-- Model of `getEnvVar` in the reddit package: an unset variable falls back
to the given placeholder. -/
def getEnvVarD (env : Env) (key fallback : String) : String :=
  (env key).getD fallback

/-- The credential fields of `reddit.Client`. -/
structure RedditClient where
  clientID : String
  clientSecret : String
deriving DecidableEq

/-- Model of `reddit.NewClient`: constructing the client never fails;
missing credentials are replaced by placeholder strings. -/
def redditNewClient (env : Env) : RedditClient :=
  { clientID := getEnvVarD env "REDDIT_CLIENT_ID" "YOUR_CLIENT_ID"
    clientSecret := getEnvVarD env "REDDIT_CLIENT_SECRET" "YOUR_CLIENT_SECRET" }

/-- Model of `gemini.NewClient` (`gemini/client.go`): fails exactly when the
API key variable is unset or empty (`os.Getenv` yields `""` for unset). -/
def geminiNewClient (env : Env) : Except String Unit :=
  if (env "GOOGLE_API_KEY").getD "" = "" then
    .error "GOOGLE_API_KEY environment variable is required"
  else
    .ok ()

/-- Model of `maps.NewClient`: fails exactly when the Maps API key variable
is unset or empty. -/
def mapsNewClient (env : Env) : Except String Unit :=
  if (env "GOOGLE_MAPS_API_KEY").getD "" = "" then
    .error "GOOGLE_MAPS_API_KEY environment variable is required"
  else
    .ok ()

/-- Trace of a fresh (cache-bypassing) run of `exportRestaurantData`:
whether the post-fetch stage performed its work, and the final outcome. -/
structure RunTrace where
  postsFetched : Bool
  result : Except String (List Candidate)

/-- Model of the fresh path of `exportRestaurantData` in `main.go`: build
the reddit client (never fails), fetch the posts, and only then construct
the Gemini client — whose missing-credential check therefore runs after the
post-fetch stage has completed. -/
def exportRestaurantDataFresh (env : Env)
    (fetchPosts : RedditClient → Except String (List Post))
    (extract : List Post → Except String (List Candidate)) : RunTrace :=
  match fetchPosts (redditNewClient env) with
  | .error e => ⟨false, .error e⟩
  | .ok posts =>
    match geminiNewClient env with
    | .error e => ⟨true, .error e⟩
    | .ok _ => ⟨true, extract posts⟩

/-! ### Ranking, deduplication and export (command `generate-top-post-google-map-csv`) -/

/-- Descending-by-upvotes ordering: `a` may precede `b` when `a` has at
least as many upvotes. -/
def upvoteGE (up : α → ℤ) (a b : α) : Prop := up b ≤ up a

instance (up : α → ℤ) : DecidableRel (upvoteGE up) := fun a b =>
  inferInstanceAs (Decidable (up b ≤ up a))

instance (up : α → ℤ) : IsTotal α (upvoteGE up) :=
  ⟨fun a b => le_total (up b) (up a)⟩

instance (up : α → ℤ) : IsTrans α (upvoteGE up) :=
  ⟨fun _ _ _ hab hbc => le_trans hbc hab⟩

/-- Sort a list descending by upvotes (stable). -/
def sortByUpvotesDesc (up : α → ℤ) (l : List α) : List α :=
  l.insertionSort (upvoteGE up)

/-- Keep the first occurrence of each name, scanning left to right with the
set of names already seen. -/
def keepFirstByName : List Candidate → List String → List Candidate
  | [], _ => []
  | c :: rest, seen =>
    if c.name ∈ seen then keepFirstByName rest seen
    else c :: keepFirstByName rest (c.name :: seen)

/-- Modelled from the spec: the post-extraction deduplication step of the
full `generate-top-post-google-map-csv` command (the variant invoked by the
monthly workflow with its `--num-output`/`--time-range` flags, absent from
the sources at hand) — "restaurants are sorted descending by upvotes, then
reduced to first-occurrence-by-name, preserving the upvote-sorted order". -/
def dedupe (l : List Candidate) : List Candidate :=
  keepFirstByName (sortByUpvotesDesc Candidate.upvotes l) []

/-- Modelled from the spec: the pre-export ranking/truncation of the full
command variant — "resolved restaurants are sorted descending by upvotes;
if an output-row limit is configured, the list is truncated to that many
leading rows". -/
def exportRows (l : List Resolved) (k : ℕ) : List Resolved :=
  (sortByUpvotesDesc Resolved.upvotes l).take k

/-! ### CSV rendering (`exportToCSV` in `main.go`, package `csv`) -/

/-- Exactly `prec` decimal digits of `n`, most significant first. -/
def fracDigits (prec : ℕ) (n : ℕ) : List Char :=
  (List.range prec).map (fun i => Char.ofNat (48 + n / 10 ^ (prec - 1 - i) % 10))

/-- Round a rational to the nearest integer, ties to even (the rounding of
Go's fixed-precision float formatting). -/
def roundHalfEven (q : ℚ) : ℤ :=
  if q - ⌊q⌋ < 1/2 then ⌊q⌋
  else if 1/2 < q - ⌊q⌋ then ⌊q⌋ + 1
  else if ⌊q⌋ % 2 = 0 then ⌊q⌋ else ⌊q⌋ + 1

/-- Model of Go's `%.<prec>f` formatting on the rational model of a
`float64`: sign, integer part, and exactly `prec` decimal digits. -/
def formatF (prec : ℕ) (q : ℚ) : String :=
  let scaled : ℕ := (roundHalfEven (|q| * (10 : ℚ) ^ prec)).toNat
  let sign := if q < 0 then "-" else ""
  if prec = 0 then sign ++ toString scaled
  else sign ++ toString (scaled / 10 ^ prec) ++ "." ++
    String.mk (fracDigits prec (scaled % 10 ^ prec))

/-- Header row written by `exportToCSV`. -/
def csvHeader : List String :=
  ["Name", "Type", "Google Maps url", "Google Maps rating", "Reddit url", "Lat", "Lng"]

/-- Data row written by `exportToCSV` for the restaurant at index `i`
(rank `i + 1`). -/
def csvRow (i : ℕ) (r : Resolved) : List String :=
  [ r.name ++ " (#" ++ toString (i + 1) ++ ", " ++ toString r.upvotes ++ " upvotes)"
  , r.googleMapsData.placeType
  , r.googleMapsData.googleMapsUrl
  , formatF 1 r.googleMapsData.rating ++ " (" ++
      toString r.googleMapsData.userRatingCount ++ " reviews)"
  , r.redditUrl
  , formatF 6 r.googleMapsData.latitude
  , formatF 6 r.googleMapsData.longitude ]

/-- Data rows for the restaurants starting at index `i`. -/
def csvRowsFrom (i : ℕ) : List Resolved → List (List String)
  | [] => []
  | r :: rest => csvRow i r :: csvRowsFrom (i + 1) rest

/-- All CSV records written by `exportToCSV` for an (already sorted) list:
the header followed by one row per restaurant; the `csv` package writes one
line per record. -/
def csvLines (rs : List Resolved) : List (List String) :=
  csvHeader :: csvRowsFrom 0 rs

/-! ### Helper lemmas for the cache helper -/

theorem getCachedOrFetch_hit {T : Type} (st : CacheState) (key : String)
    (dec : Json → Option T) (enc : T → Json) (fetchFn : Except String T)
    (file payload : Json) (v : T) (hst : st key = some file)
    (henv : readEnvelope file = .ok payload) (hdec : dec payload = some v) :
    getCachedOrFetch st key true dec enc fetchFn = ⟨.ok v, st, false⟩ := by
  simp [getCachedOrFetch, cacheExists, hst, henv, hdec]

theorem getCachedOrFetch_noInvoke {T : Type} (st : CacheState) (key : String)
    (dec : Json → Option T) (enc : T → Json) (fetchFn : Except String T)
    (hex : cacheExists st key = true) :
    (getCachedOrFetch st key true dec enc fetchFn).invokedFetch = false := by
  unfold getCachedOrFetch
  rw [if_pos ⟨rfl, hex⟩]
  split
  · rfl
  · split
    · rfl
    · split <;> rfl

theorem getCachedOrFetch_miss {T : Type} (st : CacheState) (key : String)
    (useCache : Bool) (dec : Json → Option T) (enc : T → Json)
    (fetchFn : Except String T) (h : useCache = false ∨ st key = none) :
    (getCachedOrFetch st key useCache dec enc fetchFn).invokedFetch = true ∧
    ∀ v, fetchFn = .ok v →
      getCachedOrFetch st key useCache dec enc fetchFn =
        ⟨.ok v, writeToCache st key (enc v), true⟩ := by
  have hcond : ¬(useCache = true ∧ cacheExists st key = true) := by
    rcases h with h | h
    · simp [h]
    · simp [cacheExists, h]
  unfold getCachedOrFetch
  rw [if_neg hcond]
  refine ⟨?_, ?_⟩
  · rcases fetchFn with e | v <;> rfl
  · intro v hv
    rw [hv]

/-! ### Claim C1: the get-or-fetch contract -/

/-- C1: for every cache key, flag and fetch closure, `getCachedOrFetch`
returns the deserialized snapshot stored at the key without invoking the
fetch closure whenever caching is enabled and a snapshot exists; in every
other case it invokes the closure, and on its success persists the result
under the key and returns it. -/
theorem getCachedOrFetch_spec {T : Type} (st : CacheState) (key : String)
    (useCache : Bool) (dec : Json → Option T) (enc : T → Json)
    (fetchFn : Except String T) :
    (useCache = true → cacheExists st key = true →
      (getCachedOrFetch st key useCache dec enc fetchFn).invokedFetch = false) ∧
    (∀ file payload v, useCache = true → st key = some file →
      readEnvelope file = .ok payload → dec payload = some v →
      getCachedOrFetch st key useCache dec enc fetchFn = ⟨.ok v, st, false⟩) ∧
    ((useCache = false ∨ st key = none) →
      (getCachedOrFetch st key useCache dec enc fetchFn).invokedFetch = true ∧
      ∀ v, fetchFn = .ok v →
        getCachedOrFetch st key useCache dec enc fetchFn =
          ⟨.ok v, writeToCache st key (enc v), true⟩) :=
  ⟨fun hu hex => hu ▸ getCachedOrFetch_noInvoke st key dec enc fetchFn hex,
   fun file payload v hu hst henv hdec =>
     hu ▸ getCachedOrFetch_hit st key dec enc fetchFn file payload v hst henv hdec,
   fun h => getCachedOrFetch_miss st key useCache dec enc fetchFn h⟩

/-- Decoder used by concrete cache witnesses: an integer payload. -/
def intDec : Json → Option ℤ
  | Json.num n => some n
  | _ => none

/-- Encoder used by concrete cache witnesses. -/
def intEnc : ℤ → Json := Json.num

/-- The empty cache directory. -/
def emptyCache : CacheState := fun _ => none

/-- Witness for C1: with a snapshot holding `7` under `"foodnyc"` and
caching enabled, the stored value is returned, the fetch closure (which
would yield `3`) is not invoked, and the cache is unchanged. -/
theorem getCachedOrFetch_spec_witness :
    getCachedOrFetch (writeToCache emptyCache "foodnyc" (Json.num 7)) "foodnyc" true
      intDec intEnc (.ok 3) =
      ⟨.ok 7, writeToCache emptyCache "foodnyc" (Json.num 7), false⟩ :=
  (getCachedOrFetch_spec (writeToCache emptyCache "foodnyc" (Json.num 7)) "foodnyc"
      true intDec intEnc (.ok 3)).2.1
    (Json.obj [("data", Json.num 7)]) (Json.num 7) 7 rfl rfl rfl rfl

/-! ### Claim C10: write-then-read cache round trip -/

/-- C10: writing a serializable value to the snapshot store and then calling
`getCachedOrFetch` for the same key with caching enabled returns the original
value (the write wraps it in a `{data: v}` envelope, the read round-trips the
envelope payload), and `CacheExists` holds after the write. -/
theorem writeToCache_roundtrip {T : Type} (st : CacheState) (key : String)
    (dec : Json → Option T) (enc : T → Json) (v : T)
    (hrt : dec (enc v) = some v) (fetchFn : Except String T) :
    cacheExists (writeToCache st key (enc v)) key = true ∧
    getCachedOrFetch (writeToCache st key (enc v)) key true dec enc fetchFn =
      ⟨.ok v, writeToCache st key (enc v), false⟩ := by
  have hst : writeToCache st key (enc v) key = some (Json.obj [("data", enc v)]) := by
    simp [writeToCache]
  exact ⟨by simp [cacheExists, hst],
    getCachedOrFetch_hit _ key dec enc fetchFn _ (enc v) v hst (by simp [readEnvelope, lookupField]) hrt⟩

/-- Witness for C10 at the concrete value `5` under key `"k"`. -/
theorem writeToCache_roundtrip_witness :
    cacheExists (writeToCache emptyCache "k" (intEnc 5)) "k" = true ∧
    getCachedOrFetch (writeToCache emptyCache "k" (intEnc 5)) "k" true intDec intEnc
        (.error "e") =
      ⟨.ok 5, writeToCache emptyCache "k" (intEnc 5), false⟩ :=
  writeToCache_roundtrip emptyCache "k" intDec intEnc 5 rfl (.error "e")

/-! ### Helper lemmas for pagination -/

/-- A post with arbitrary content, for concrete pagination runs. -/
def dummyPost : Post := ⟨"title", "permalink", "selftext", 1⟩

/-- A page source that always returns exactly the requested number of posts
and a live continuation cursor. -/
def srcExact : PageSource := fun remaining _ _ =>
  .ok ⟨List.replicate remaining.toNat dummyPost, "next"⟩

/-- A page source that returns 30 posts and reports cursor exhaustion on
the first page. -/
def srcShort : PageSource := fun _ _ _ =>
  .ok ⟨List.replicate 30 dummyPost, ""⟩

theorem getPostsLoop_step (src : PageSource) (limit : ℤ) (fuel : ℕ)
    (acc : List Post) (after : String) (count : ℕ) (reqs : List ℤ) (rem : ℤ)
    (hlt : (acc.length : ℤ) < limit)
    (hrem : (if limit - (acc.length : ℤ) > 100 then (100 : ℤ)
              else limit - (acc.length : ℤ)) = rem)
    (ps : List Post) (c : String)
    (hs : src rem after count = .ok ⟨ps, c⟩) (hc : ¬c = "") :
    getPostsLoop src limit (fuel + 1) acc after count reqs =
      getPostsLoop src limit fuel (acc ++ ps) c (count + ps.length) (reqs ++ [rem]) := by
  conv_lhs => unfold getPostsLoop
  rw [if_pos hlt]
  dsimp only
  rw [hrem, hs]
  dsimp only
  rw [if_neg hc]

theorem getPostsLoop_done (src : PageSource) (limit : ℤ) (fuel : ℕ)
    (acc : List Post) (after : String) (count : ℕ) (reqs : List ℤ)
    (h : ¬(acc.length : ℤ) < limit) :
    getPostsLoop src limit (fuel + 1) acc after count reqs =
      some (.ok (acc, .countReached), reqs) := by
  unfold getPostsLoop
  rw [if_neg h]

theorem getPostsLoop_countReached (src : PageSource) (limit : ℤ) :
    ∀ (fuel : ℕ) (acc : List Post) (after : String) (count : ℕ) (reqs : List ℤ)
      (posts : List Post) (reqs2 : List ℤ),
      getPostsLoop src limit fuel acc after count reqs =
        some (.ok (posts, .countReached), reqs2) →
      limit ≤ posts.length := by
  intro fuel
  induction fuel with
  | zero =>
    intro acc after count reqs posts reqs2 h
    exact absurd h (by simp [getPostsLoop])
  | succ n ih =>
    intro acc after count reqs posts reqs2 h
    unfold getPostsLoop at h
    split at h
    · dsimp only at h
      split at h
      · simp at h
      · split at h
        · simp at h
        · exact ih _ _ _ _ _ _ h
    · rename_i hge
      simp only [Option.some.injEq, Prod.mk.injEq, Except.ok.injEq] at h
      obtain ⟨⟨hacc, -⟩, -⟩ := h
      subst hacc
      omega

theorem getPosts_three_pages (src : PageSource)
    (hsrc : ∀ rem after count, 0 < rem → ∃ ps c,
        src rem after count = .ok ⟨ps, c⟩ ∧ (ps.length : ℤ) = rem ∧ ¬c = "") :
    ∃ posts, getPosts src 250 10 = some (.ok (posts, .countReached), [100, 100, 50]) ∧
      posts.length = 250 := by
  obtain ⟨ps1, c1, hs1, hl1, hc1⟩ := hsrc 100 "" 0 (by norm_num)
  have hl1' : ps1.length = 100 := by exact_mod_cast hl1
  obtain ⟨ps2, c2, hs2, hl2, hc2⟩ := hsrc 100 c1 100 (by norm_num)
  have hl2' : ps2.length = 100 := by exact_mod_cast hl2
  obtain ⟨ps3, c3, hs3, hl3, hc3⟩ := hsrc 50 c2 200 (by norm_num)
  have hl3' : ps3.length = 50 := by exact_mod_cast hl3
  refine ⟨ps1 ++ ps2 ++ ps3, ?_, by simp [hl1', hl2', hl3']⟩
  unfold getPosts
  rw [show (10 : ℕ) = 9 + 1 from rfl,
    getPostsLoop_step src 250 9 [] "" 0 [] 100 (by norm_num) (by norm_num) ps1 c1 hs1 hc1]
  simp only [List.nil_append, Nat.zero_add, hl1']
  rw [show (9 : ℕ) = 8 + 1 from rfl,
    getPostsLoop_step src 250 8 ps1 c1 100 [100] 100
      (by simp only [hl1']; norm_num) (by simp only [hl1']; norm_num) ps2 c2 hs2 hc2]
  simp only [hl2', List.length_append, hl1', List.cons_append, List.nil_append,
    Nat.reduceAdd]
  rw [show (8 : ℕ) = 7 + 1 from rfl,
    getPostsLoop_step src 250 7 (ps1 ++ ps2) c2 200 [100, 100] 50
      (by simp only [List.length_append, hl1', hl2']; norm_num)
      (by simp only [List.length_append, hl1', hl2']; norm_num) ps3 c3 hs3 hc3]
  simp only [hl3', List.cons_append, List.nil_append, Nat.reduceAdd]
  rw [show (7 : ℕ) = 6 + 1 from rfl,
    getPostsLoop_done src 250 6 (ps1 ++ ps2 ++ ps3) c3 250 [100, 100, 50]
      (by simp only [List.length_append, hl1', hl2', hl3']; norm_num)]

/-! ### Claim C2: pagination of the Forum Post Source -/

/-- C2: with the fixed page size of 100 and a requested count of 250, a
source that always returns exactly the requested number of posts per page
with a live cursor is asked for exactly 3 pages with per-page limits 100,
100 and 50; in general the loop stops with `countReached` only once the
accumulated posts reach the requested count, and a source that exhausts its
cursor early yields fewer posts than requested without error. -/
theorem getPosts_pagination :
    (∀ src : PageSource,
      (∀ rem after count, 0 < rem → ∃ ps c,
          src rem after count = .ok ⟨ps, c⟩ ∧ (ps.length : ℤ) = rem ∧ ¬c = "") →
      ∃ posts, getPosts src 250 10 = some (.ok (posts, .countReached), [100, 100, 50]) ∧
        posts.length = 250) ∧
    (∀ (src : PageSource) (limit : ℤ) (fuel : ℕ) (posts : List Post) (reqs : List ℤ),
      getPosts src limit fuel = some (.ok (posts, .countReached), reqs) →
      limit ≤ posts.length) ∧
    getPosts srcShort 250 10 =
      some (.ok (List.replicate 30 dummyPost, .cursorExhausted), [100]) :=
  ⟨getPosts_three_pages,
   fun src limit fuel posts reqs h =>
     getPostsLoop_countReached src limit fuel [] "" 0 [] posts reqs h,
   rfl⟩

/-- Witness for C2: the exact-page source is asked for pages of 100, 100
and 50 posts and yields 250 posts in total. -/
theorem getPosts_pagination_witness :
    ∃ posts, getPosts srcExact 250 10 = some (.ok (posts, .countReached), [100, 100, 50]) ∧
      posts.length = 250 :=
  getPosts_pagination.1 srcExact (fun rem _ _ hrem =>
    ⟨List.replicate rem.toNat dummyPost, "next", rfl,
     by simp [Int.toNat_of_nonneg (le_of_lt hrem)], by decide⟩)

/-! ### Claim C3: the Extraction Stage does not chunk -/

/-- A generation oracle that always answers with one fixed candidate text. -/
def genConst : List Post → Except String (List String) := fun _ => .ok ["response"]

/-- A parser that accepts any text as an empty candidate list. -/
def parseEmpty : String → Option (List Candidate) := fun _ => some []

/-- Counterexample for C3: on a 250-post input the extraction stage invokes
the generation service exactly once, not ceil(250/100) = 3 times — the code
sends the whole batch in a single prompt and has no chunking loop. -/
theorem toRestaurantData_no_chunking :
    (toRestaurantData genConst parseEmpty (List.replicate 250 dummyPost)).2 = 1 ∧
    (1 : ℕ) ≠ (250 + 100 - 1) / 100 :=
  ⟨rfl, by norm_num⟩

/-- C3 (amended): for every input post list the extraction stage makes
exactly one generation-service call, on the entire input batch, and a
successful result is precisely the parse of that single response's first
candidate text. -/
theorem toRestaurantData_single_call
    (gen : List Post → Except String (List String))
    (parse : String → Option (List Candidate)) (posts : List Post) :
    (toRestaurantData gen parse posts).2 = 1 ∧
    (∀ rs, (toRestaurantData gen parse posts).1 = .ok rs ↔
      ∃ text rest, gen posts = .ok (text :: rest) ∧ parse text = some rs) := by
  unfold toRestaurantData
  rcases hg : gen posts with e | ls
  · exact ⟨rfl, fun rs => by simp⟩
  · rcases ls with _ | ⟨t, rest⟩
    · exact ⟨rfl, fun rs => by simp⟩
    · dsimp only
      rcases hp : parse t with _ | rs0
      · refine ⟨rfl, fun rs => ?_⟩
        simp [hp]
      · refine ⟨rfl, fun rs => ?_⟩
        simp only [Except.ok.injEq, List.cons.injEq]
        constructor
        · rintro rfl
          exact ⟨t, rest, ⟨rfl, rfl⟩, hp⟩
        · rintro ⟨text, rest2, ⟨rfl, rfl⟩, hparse⟩
          rw [hp] at hparse
          exact Option.some.inj hparse

/-! ### Helper lemmas for deduplication -/

theorem keepFirstByName_sublist (l : List Candidate) :
    ∀ seen, List.Sublist (keepFirstByName l seen) l := by
  induction l with
  | nil => intro seen; simp [keepFirstByName]
  | cons c rest ih =>
    intro seen
    unfold keepFirstByName
    split
    · exact (ih seen).cons c
    · exact (ih (c.name :: seen)).cons₂ c

theorem keepFirstByName_nodup_names (l : List Candidate) :
    ∀ seen, ((keepFirstByName l seen).map Candidate.name).Nodup ∧
      ∀ n ∈ (keepFirstByName l seen).map Candidate.name, n ∉ seen := by
  induction l with
  | nil => intro seen; simp [keepFirstByName]
  | cons c rest ih =>
    intro seen
    unfold keepFirstByName
    split
    · exact ih seen
    · rename_i hns
      obtain ⟨hnd, havoid⟩ := ih (c.name :: seen)
      refine ⟨?_, ?_⟩
      · simp only [List.map_cons, List.nodup_cons]
        exact ⟨fun hmem => (havoid _ hmem) (List.mem_cons_self _ _), hnd⟩
      · intro n hn
        simp only [List.map_cons, List.mem_cons] at hn
        rcases hn with rfl | hn
        · exact hns
        · exact fun hseen => havoid n hn (List.mem_cons_of_mem _ hseen)

theorem keepFirstByName_covers (l : List Candidate) :
    ∀ seen n, n ∈ l.map Candidate.name →
      n ∈ seen ∨ n ∈ (keepFirstByName l seen).map Candidate.name := by
  induction l with
  | nil => intro seen n h; simp at h
  | cons c rest ih =>
    intro seen n h
    simp only [List.map_cons, List.mem_cons] at h
    unfold keepFirstByName
    split
    · rename_i hin
      rcases h with rfl | h
      · exact Or.inl hin
      · exact ih seen n h
    · rcases h with rfl | h
      · right; simp
      · rcases ih (c.name :: seen) n h with hseen | hmem
        · rcases List.mem_cons.mp hseen with rfl | hs
          · right; simp
          · exact Or.inl hs
        · right
          simp only [List.map_cons, List.mem_cons]
          exact Or.inr hmem

theorem keepFirstByName_of_nodup (l : List Candidate) :
    ∀ seen, (l.map Candidate.name).Nodup →
      (∀ n ∈ l.map Candidate.name, n ∉ seen) → keepFirstByName l seen = l := by
  induction l with
  | nil => intro seen _ _; rfl
  | cons c rest ih =>
    intro seen hnd havoid
    have hnd' : c.name ∉ rest.map Candidate.name ∧ (rest.map Candidate.name).Nodup := by
      rw [List.map_cons] at hnd
      exact List.nodup_cons.mp hnd
    unfold keepFirstByName
    rw [if_neg (havoid c.name (by simp))]
    congr 1
    apply ih
    · exact hnd'.2
    · intro n hn hmem
      rcases List.mem_cons.mp hmem with rfl | hseen
      · exact hnd'.1 hn
      · exact havoid n (by simp [hn]) hseen

/-! ### Claim C4: deduplication (modelled from the spec) -/

/-- C4: `dedupe` keeps each distinct name exactly once (names of the output
are nodup, cover exactly the input's names, and each input name occurs once
in the output), preserves the order of first occurrence in the upvote-sorted
input (the output is a sublist of the sorted input), and is idempotent. -/
theorem dedupe_spec (l : List Candidate) :
    ((dedupe l).map Candidate.name).Nodup ∧
    (∀ n, n ∈ l.map Candidate.name ↔ n ∈ (dedupe l).map Candidate.name) ∧
    (∀ n, n ∈ l.map Candidate.name → ((dedupe l).map Candidate.name).count n = 1) ∧
    (dedupe l).Sublist (sortByUpvotesDesc Candidate.upvotes l) ∧
    dedupe (dedupe l) = dedupe l := by
  have hsub : List.Sublist (dedupe l) (sortByUpvotesDesc Candidate.upvotes l) :=
    keepFirstByName_sublist _ []
  have hnd : ((dedupe l).map Candidate.name).Nodup :=
    (keepFirstByName_nodup_names (sortByUpvotesDesc Candidate.upvotes l) []).1
  have hperm : List.Perm ((sortByUpvotesDesc Candidate.upvotes l).map Candidate.name)
      (l.map Candidate.name) :=
    (List.perm_insertionSort _ l).map Candidate.name
  have hmem : ∀ n, n ∈ l.map Candidate.name ↔ n ∈ (dedupe l).map Candidate.name := by
    intro n
    constructor
    · intro h
      rcases keepFirstByName_covers (sortByUpvotesDesc Candidate.upvotes l) [] n
          (hperm.mem_iff.mpr h) with hn | hn
      · exact absurd hn (List.not_mem_nil n)
      · exact hn
    · intro h
      exact hperm.mem_iff.mp (((hsub.map Candidate.name).subset) h)
  refine ⟨hnd, hmem, ?_, hsub, ?_⟩
  · intro n h
    exact List.count_eq_one_of_mem hnd ((hmem n).mp h)
  · have hsorted : List.Sorted (upvoteGE Candidate.upvotes) (dedupe l) :=
      (List.sorted_insertionSort _ l).sublist hsub
    show keepFirstByName (sortByUpvotesDesc Candidate.upvotes (dedupe l)) [] = dedupe l
    rw [sortByUpvotesDesc, hsorted.insertionSort_eq]
    exact keepFirstByName_of_nodup _ [] hnd (by simp)

/-- A concrete candidate list with one duplicated name. -/
def sampleCandidates : List Candidate :=
  [⟨"A", 5, "u1", "", ""⟩, ⟨"A", 3, "u2", "", ""⟩, ⟨"B", 4, "u3", "", ""⟩]

/-- Witness for C4: on a concrete list with a duplicated name `"A"`, the
deduplicated output holds `"A"` exactly once and deduplication is
idempotent. -/
theorem dedupe_spec_witness :
    ((dedupe sampleCandidates).map Candidate.name).count "A" = 1 ∧
    dedupe (dedupe sampleCandidates) = dedupe sampleCandidates :=
  ⟨(dedupe_spec sampleCandidates).2.2.1 "A" (by simp [sampleCandidates]),
   (dedupe_spec sampleCandidates).2.2.2.2⟩

/-! ### Claim C5: export truncation (modelled from the spec) -/

/-- C5: for every resolved list and configured output-row limit `k > 0`,
the export step keeps exactly `min k (length l)` rows, and every kept row
has at least as many upvotes as every dropped row (the `k` highest-upvoted
rows). -/
theorem exportRows_spec (l : List Resolved) (k : ℕ) (hk : 0 < k) :
    (exportRows l k).length = min k l.length ∧
    ∀ x ∈ exportRows l k, ∀ y ∈ (sortByUpvotesDesc Resolved.upvotes l).drop k,
      y.upvotes ≤ x.upvotes := by
  refine ⟨?_, ?_⟩
  · simp [exportRows, sortByUpvotesDesc]
  · intro x hx y hy
    have hp : List.Pairwise (upvoteGE Resolved.upvotes)
        (List.take k (sortByUpvotesDesc Resolved.upvotes l) ++
          List.drop k (sortByUpvotesDesc Resolved.upvotes l)) := by
      rw [List.take_append_drop]
      exact List.sorted_insertionSort _ l
    exact (List.pairwise_append.mp hp).2.2 x hx y hy

/-- A concrete resolved restaurant for export witnesses. -/
def sampleResolved (nm : String) (up : ℤ) : Resolved :=
  ⟨nm, up, "r", "", ⟨1, 2, 4, 10, "g", "t"⟩⟩

/-- Witness for C5: limiting a two-element list to one row keeps exactly
one row, which dominates the dropped row by upvotes. -/
theorem exportRows_spec_witness :
    (exportRows [sampleResolved "A" 1, sampleResolved "B" 9] 1).length =
      min 1 [sampleResolved "A" 1, sampleResolved "B" 9].length ∧
    ∀ x ∈ exportRows [sampleResolved "A" 1, sampleResolved "B" 9] 1,
      ∀ y ∈ (sortByUpvotesDesc Resolved.upvotes
          [sampleResolved "A" 1, sampleResolved "B" 9]).drop 1,
        y.upvotes ≤ x.upvotes :=
  exportRows_spec [sampleResolved "A" 1, sampleResolved "B" 9] 1 (by norm_num)

/-! ### Claim C6: candidate-level failures never abort the resolution batch -/

/-- C6: a search returning zero matches, or a first match without a
user-rating count, makes `fetchGoogleMapsLink` drop that candidate with no
error; and the caller's loop resolves every candidate independently — its
output is exactly the filter-map of the per-candidate resolutions, so one
candidate's error or empty resolution never stops the remaining ones. -/
theorem resolveBatch_partial_failure :
    (∀ (search : String → Except String (List Place)) (c : Candidate),
      search (queryOf c) = .ok [] → fetchGoogleMapsLink search c = .ok none) ∧
    (∀ (search : String → Except String (List Place)) (c : Candidate) (p : Place)
      (ps : List Place), search (queryOf c) = .ok (p :: ps) →
      p.userRatingCount = none → fetchGoogleMapsLink search c = .ok none) ∧
    (∀ (search : String → Except String (List Place)) (cs : List Candidate),
      resolveBatch search cs = cs.filterMap (fun c =>
        match fetchGoogleMapsLink search c with
        | .ok (some r) => some r
        | _ => none)) := by
  refine ⟨?_, ?_, ?_⟩
  · intro search c h
    unfold fetchGoogleMapsLink
    rw [h]
  · intro search c p ps h hcnt
    unfold fetchGoogleMapsLink
    rw [h]
    dsimp only
    rw [hcnt]
  · intro search cs
    induction cs with
    | nil => rfl
    | cons c rest ih =>
      rw [List.filterMap_cons]
      unfold resolveBatch
      rcases h : fetchGoogleMapsLink search c with e | o
      · exact ih
      · rcases o with _ | r
        · exact ih
        · dsimp only
          rw [ih]

/-- An always-empty search oracle. -/
def searchEmpty : String → Except String (List Place) := fun _ => .ok []

/-- A concrete candidate. -/
def sampleCand : Candidate := ⟨"Joe", 7, "url", "SoHo", "old-link"⟩

/-- Witness for C6: with a search that finds nothing, the candidate is
dropped without an error. -/
theorem resolveBatch_partial_failure_witness :
    fetchGoogleMapsLink searchEmpty sampleCand = .ok none :=
  resolveBatch_partial_failure.1 searchEmpty sampleCand rfl

/-! ### Claim C9: resolution preserves upstream fields, replaces the map link -/

/-- C9: a successful resolution copies the candidate's name, upvotes,
source permalink and neighborhood unchanged, sets the map link to the
canonical link built from the returned place (never the extraction-guessed
link), and is insensitive to whatever map link extraction guessed. -/
theorem fetchGoogleMapsLink_preserves_fields
    (search : String → Except String (List Place)) (c : Candidate) (r : Resolved)
    (h : fetchGoogleMapsLink search c = .ok (some r)) :
    r.name = c.name ∧ r.upvotes = c.upvotes ∧ r.redditUrl = c.redditUrl ∧
    r.neighborhood = c.neighborhood ∧
    (∃ p ps cnt, search (queryOf c) = .ok (p :: ps) ∧ p.userRatingCount = some cnt ∧
      r.googleMapsData.googleMapsUrl = mapsLinkOf p.name) ∧
    (∀ u, fetchGoogleMapsLink search { c with googleMapsUrl := u } =
      fetchGoogleMapsLink search c) := by
  unfold fetchGoogleMapsLink at h
  rcases hs : search (queryOf c) with e | places
  · rw [hs] at h
    exact absurd h (by simp)
  · rw [hs] at h
    rcases places with _ | ⟨p, ps⟩
    · simp at h
    · dsimp only at h
      rcases hcnt : p.userRatingCount with _ | cnt
      · rw [hcnt] at h
        simp at h
      · rw [hcnt] at h
        simp only [Except.ok.injEq, Option.some.injEq] at h
        subst h
        refine ⟨rfl, rfl, rfl, rfl, ⟨p, ps, cnt, rfl, hcnt, rfl⟩, ?_⟩
        intro u
        unfold fetchGoogleMapsLink
        have hq : queryOf { c with googleMapsUrl := u } = queryOf c := rfl
        rw [hq]

/-- A place record with a rating count, as a search result. -/
def samplePlace : Place := ⟨"places/abc", 1, 2, 9/2, some 10, "Restaurant"⟩

/-- A search oracle that always returns the sample place. -/
def searchOne : String → Except String (List Place) := fun _ => .ok [samplePlace]

/-- The resolution of `sampleCand` under `searchOne`. -/
def sampleResolvedJoe : Resolved :=
  ⟨"Joe", 7, "url", "SoHo", ⟨1, 2, 9/2, 10, mapsLinkOf "places/abc", "Restaurant"⟩⟩

/-- Witness for C9 at a concrete candidate, place and resolution. -/
theorem fetchGoogleMapsLink_preserves_fields_witness :
    sampleResolvedJoe.name = sampleCand.name ∧
    sampleResolvedJoe.upvotes = sampleCand.upvotes ∧
    sampleResolvedJoe.redditUrl = sampleCand.redditUrl ∧
    sampleResolvedJoe.neighborhood = sampleCand.neighborhood ∧
    (∃ p ps cnt, searchOne (queryOf sampleCand) = .ok (p :: ps) ∧
      p.userRatingCount = some cnt ∧
      sampleResolvedJoe.googleMapsData.googleMapsUrl = mapsLinkOf p.name) ∧
    (∀ u, fetchGoogleMapsLink searchOne { sampleCand with googleMapsUrl := u } =
      fetchGoogleMapsLink searchOne sampleCand) :=
  fetchGoogleMapsLink_preserves_fields searchOne sampleCand sampleResolvedJoe rfl

/-! ### Helper lemmas for CSV rendering -/

theorem csvRowsFrom_length (rs : List Resolved) :
    ∀ i, (csvRowsFrom i rs).length = rs.length := by
  induction rs with
  | nil => intro i; rfl
  | cons r rest ih => intro i; simp [csvRowsFrom, ih]

theorem csvRowsFrom_get (rs : List Resolved) :
    ∀ j i r, rs[i]? = some r → (csvRowsFrom j rs)[i]? = some (csvRow (j + i) r) := by
  induction rs with
  | nil => intro j i r h; simp at h
  | cons x rest ih =>
    intro j i r h
    cases i with
    | zero =>
      simp only [List.getElem?_cons_zero, Option.some.injEq] at h
      subst h
      simp [csvRowsFrom]
    | succ i =>
      simp only [List.getElem?_cons_succ] at h
      simp only [csvRowsFrom, List.getElem?_cons_succ]
      rw [ih (j + 1) i r h, show j + 1 + i = j + (i + 1) from by omega]

theorem formatF_frac (prec : ℕ) (hp : prec ≠ 0) (q : ℚ) :
    ∃ a b, formatF prec q = a ++ "." ++ b ∧ b.length = prec := by
  refine ⟨(if q < 0 then "-" else "") ++
      toString ((roundHalfEven (|q| * (10 : ℚ) ^ prec)).toNat / 10 ^ prec),
    String.mk (fracDigits prec ((roundHalfEven (|q| * (10 : ℚ) ^ prec)).toNat % 10 ^ prec)),
    ?_, ?_⟩
  · unfold formatF
    rw [if_neg hp]
  · have hmk : (String.mk (fracDigits prec
        ((roundHalfEven (|q| * (10 : ℚ) ^ prec)).toNat % 10 ^ prec))).length =
        (fracDigits prec ((roundHalfEven (|q| * (10 : ℚ) ^ prec)).toNat % 10 ^ prec)).length :=
      rfl
    rw [hmk, fracDigits, List.length_map, List.length_range]

/-! ### Claim C7: CSV shape and field formatting -/

/-- C7: the exporter emits exactly one header plus one row per restaurant
(`n + 1` records); the row at rank `i + 1` carries the name annotated with
rank and upvotes (the first data row uses rank 1), the rating rendered to 1
decimal place with the review count, and the coordinates rendered to 6
decimal places; fixed-precision rendering always produces exactly the
requested number of digits after the decimal point. -/
theorem exportToCSV_format (rs : List Resolved) (i : ℕ) (r : Resolved)
    (h : rs[i]? = some r) :
    (csvLines rs).length = rs.length + 1 ∧
    (csvLines rs)[i + 1]? = some
      [ r.name ++ " (#" ++ toString (i + 1) ++ ", " ++ toString r.upvotes ++ " upvotes)"
      , r.googleMapsData.placeType
      , r.googleMapsData.googleMapsUrl
      , formatF 1 r.googleMapsData.rating ++ " (" ++
          toString r.googleMapsData.userRatingCount ++ " reviews)"
      , r.redditUrl
      , formatF 6 r.googleMapsData.latitude
      , formatF 6 r.googleMapsData.longitude ] ∧
    (∀ q : ℚ, (∃ a b, formatF 1 q = a ++ "." ++ b ∧ b.length = 1) ∧
      (∃ a b, formatF 6 q = a ++ "." ++ b ∧ b.length = 6)) := by
  refine ⟨?_, ?_, fun q => ⟨formatF_frac 1 one_ne_zero q, formatF_frac 6 (by norm_num) q⟩⟩
  · simp [csvLines, csvRowsFrom_length]
  · show (csvHeader :: csvRowsFrom 0 rs)[i + 1]? = _
    rw [List.getElem?_cons_succ, csvRowsFrom_get rs 0 i r h]
    simp only [Nat.zero_add, csvRow]

/-- Witness for C7 at a concrete one-restaurant list: two records, data row
at rank 1. -/
theorem exportToCSV_format_witness :
    (csvLines [sampleResolved "A" 5]).length = [sampleResolved "A" 5].length + 1 ∧
    (csvLines [sampleResolved "A" 5])[0 + 1]? = some
      [ (sampleResolved "A" 5).name ++ " (#" ++ toString (0 + 1) ++ ", " ++
          toString (sampleResolved "A" 5).upvotes ++ " upvotes)"
      , (sampleResolved "A" 5).googleMapsData.placeType
      , (sampleResolved "A" 5).googleMapsData.googleMapsUrl
      , formatF 1 (sampleResolved "A" 5).googleMapsData.rating ++ " (" ++
          toString (sampleResolved "A" 5).googleMapsData.userRatingCount ++ " reviews)"
      , (sampleResolved "A" 5).redditUrl
      , formatF 6 (sampleResolved "A" 5).googleMapsData.latitude
      , formatF 6 (sampleResolved "A" 5).googleMapsData.longitude ] ∧
    (∀ q : ℚ, (∃ a b, formatF 1 q = a ++ "." ++ b ∧ b.length = 1) ∧
      (∃ a b, formatF 6 q = a ++ "." ++ b ∧ b.length = 6)) :=
  exportToCSV_format [sampleResolved "A" 5] 0 (sampleResolved "A" 5) rfl

/-! ### Claim C8: missing credentials are not a pre-flight fatal error -/

/-- Counterexample for C8: in a run with every credential variable absent,
the program does not fail before a pipeline stage performs work — the
Reddit client is built with placeholder credentials (no configuration
error at all), the post-fetch stage completes, and only afterwards does
the extraction stage's client constructor raise the missing-key error. -/
theorem missing_credentials_not_preflight :
    redditNewClient (fun _ => none) = ⟨"YOUR_CLIENT_ID", "YOUR_CLIENT_SECRET"⟩ ∧
    (exportRestaurantDataFresh (fun _ => none) (fun _ => .ok [dummyPost])
        (fun _ => .ok [])).postsFetched = true ∧
    (exportRestaurantDataFresh (fun _ => none) (fun _ => .ok [dummyPost])
        (fun _ => .ok [])).result =
      .error "GOOGLE_API_KEY environment variable is required" :=
  ⟨rfl, rfl, rfl⟩

/-- C8 (amended): a missing Gemini API key is fatal, but the error is
raised when the extraction stage constructs its client — after the
post-fetch stage has already done its work — and missing Reddit
credentials never cause a configuration error: the client is built with
placeholder values. -/
theorem geminiKey_failure_after_fetch (env : Env)
    (fetchPosts : RedditClient → Except String (List Post))
    (extract : List Post → Except String (List Candidate)) (posts : List Post)
    (hkey : env "GOOGLE_API_KEY" = none)
    (hfetch : fetchPosts (redditNewClient env) = .ok posts) :
    exportRestaurantDataFresh env fetchPosts extract =
      ⟨true, .error "GOOGLE_API_KEY environment variable is required"⟩ ∧
    redditNewClient env =
      ⟨(env "REDDIT_CLIENT_ID").getD "YOUR_CLIENT_ID",
       (env "REDDIT_CLIENT_SECRET").getD "YOUR_CLIENT_SECRET"⟩ := by
  refine ⟨?_, rfl⟩
  unfold exportRestaurantDataFresh
  rw [hfetch]
  dsimp only
  have hg : geminiNewClient env =
      .error "GOOGLE_API_KEY environment variable is required" := by
    unfold geminiNewClient
    rw [hkey]
    rfl
  rw [hg]

/-- Witness for C8 (amended) at the empty environment. -/
theorem geminiKey_failure_after_fetch_witness :
    exportRestaurantDataFresh (fun _ => none) (fun _ => .ok [dummyPost])
        (fun _ => .ok []) =
      ⟨true, .error "GOOGLE_API_KEY environment variable is required"⟩ ∧
    redditNewClient (fun _ => none) =
      ⟨((fun _ => none : Env) "REDDIT_CLIENT_ID").getD "YOUR_CLIENT_ID",
       ((fun _ => none : Env) "REDDIT_CLIENT_SECRET").getD "YOUR_CLIENT_SECRET"⟩ :=
  geminiKey_failure_after_fetch (fun _ => none) (fun _ => .ok [dummyPost])
    (fun _ => .ok []) [dummyPost] rfl rfl

end RedditToGmap
